import Mathlib

/-!
Verification development for the KING orchestration core.

The definitions below are a shallow embedding of the Python sources under
`src/king/`:

* `king/core/domain/task.py`        → `TaskStatus`, `TaskType`, `Task` and its
  transition methods;
* `king/core/domain/agent.py`       → `AgentStatus`, `Agent`;
* `king/core/domain/message.py`     → `Message`, `Conversation`;
* `king/core/domain/event_bus.py`   → `EventBus`;
* `king/core/services/*.py`         → `AgentOrchestrator`, `TaskScheduler`,
  `MessageProcessor` operations, modelled as explicit state passing over the
  in-memory repositories (`king/infrastructure/persistence/in_memory_repositories.py`,
  which keep insertion-ordered `dict`s of entities);

Modelling conventions:

* Python `datetime` values are an abstract tick (`DateTime := Nat`);
  `datetime.utcnow()` is passed in explicitly as a `now` argument.  The source
  occasionally calls `utcnow()` twice in one method (e.g. `Task.start` sets
  `started_at` and `updated_at` from two separate calls); the model uses a
  single tick for both, which no claim distinguishes.
* Python dictionaries are insertion-ordered association lists
  (`List (String × _)`); `d[k] = v` replaces in place when the key exists and
  appends otherwise, exactly as Python 3.7+ `dict`s behave.
* Arbitrary Python values stored in payload/metadata dictionaries are the
  inductive `PyVal`.
* A Python method that mutates `self` and may `raise` is a function returning
  `MutResult`: `raised = true` means the method raised, and because every
  `raise` in the source occurs before the first field assignment, the carried
  task is the unchanged receiver.  Exception payloads (the message strings of
  `ValueError`/`TypeError`) are abstracted to the fact of raising.
-/

namespace KING

/-- Model of an arbitrary Python value stored in a `dict` (payload, metadata,
capability values, ...). -/
inductive PyVal where
  | vnone : PyVal
  | vbool (b : Bool) : PyVal
  | vint (n : Int) : PyVal
  | vstr (s : String) : PyVal
  | vlist (xs : List PyVal) : PyVal
  | vdict (entries : List (String × PyVal)) : PyVal

/-- Insertion-ordered association-list lookup: Python `m.get(k)` / `k in m`. -/
def mapGet {α : Type} (m : List (String × α)) (k : String) : Option α :=
  match m with
  | [] => none
  | (k1, v) :: rest => if k1 = k then some v else mapGet rest k

/-- Insertion-ordered association-list update: Python `m[k] = v` (replaces in
place when the key is present, appends otherwise). -/
def mapSet {α : Type} (m : List (String × α)) (k : String) (v : α) : List (String × α) :=
  match m with
  | [] => [(k, v)]
  | (k1, v1) :: rest => if k1 = k then (k1, v) :: rest else (k1, v1) :: mapSet rest k v

/-- A Python dictionary with string keys and arbitrary values. -/
abbrev PyDict := List (String × PyVal)

/-- Python truthiness of a `PyVal` (`if x:`). -/
def pyTruthy : PyVal → Bool
  | .vnone => false
  | .vbool b => b
  | .vint n => decide (n ≠ 0)
  | .vstr s => decide (s ≠ "")
  | .vlist xs => !xs.isEmpty
  | .vdict d => !d.isEmpty

/-- Python `datetime`, abstracted to a totally ordered tick. -/
abbrev DateTime := Nat

/-- `TaskStatus` enum of `king/core/domain/task.py`. -/
inductive TaskStatus where
  | created
  | assigned
  | in_progress
  | completed
  | failed
  | cancelled
deriving DecidableEq, Repr

/-- The `.value` string of a `TaskStatus` member. -/
def TaskStatus.value : TaskStatus → String
  | .created => "created"
  | .assigned => "assigned"
  | .in_progress => "in_progress"
  | .completed => "completed"
  | .failed => "failed"
  | .cancelled => "cancelled"

/-- Python `TaskStatus(s)` enum construction from a string: `some` on a declared
value, `none` models the `ValueError` raised on an unknown value. -/
def TaskStatus.ofValue : String → Option TaskStatus
  | "created" => some .created
  | "assigned" => some .assigned
  | "in_progress" => some .in_progress
  | "completed" => some .completed
  | "failed" => some .failed
  | "cancelled" => some .cancelled
  | _ => none

/-- `TaskType` enum of `king/core/domain/task.py`. -/
inductive TaskType where
  | llm_generation
  | rag_query
  | data_processing
  | multimodal
  | custom
deriving DecidableEq, Repr

/-- The `.value` string of a `TaskType` member. -/
def TaskType.value : TaskType → String
  | .llm_generation => "llm_generation"
  | .rag_query => "rag_query"
  | .data_processing => "data_processing"
  | .multimodal => "multimodal"
  | .custom => "custom"

/-- Python `TaskType(s)` enum construction from a string. -/
def TaskType.ofValue : String → Option TaskType
  | "llm_generation" => some .llm_generation
  | "rag_query" => some .rag_query
  | "data_processing" => some .data_processing
  | "multimodal" => some .multimodal
  | "custom" => some .custom
  | _ => none

/-- The `Task` dataclass of `king/core/domain/task.py`. -/
structure Task where
  id : String
  type : TaskType
  status : TaskStatus
  payload : PyDict
  assigned_agent : Option String
  result : Option PyDict
  error : Option String
  metadata : PyDict
  created_at : DateTime
  updated_at : DateTime
  started_at : Option DateTime
  completed_at : Option DateTime

/-- Result of a Python method that mutates its receiver and may raise:
`raised = true` means an exception was thrown, and `task` is the receiver's
state after the call (unchanged on a raise, since every `raise` in
`task.py` precedes the first field assignment). -/
structure MutResult where
  raised : Bool
  task : Task

/-- `Task.assign_to` (task.py): raises unless the status is CREATED, else sets
the agent, moves to ASSIGNED and bumps `updated_at`. -/
def Task.assign_to (t : Task) (agent_id : String) (now : DateTime) : MutResult :=
  if t.status ≠ .created then ⟨true, t⟩
  else ⟨false, { t with assigned_agent := some agent_id, status := .assigned, updated_at := now }⟩

/-- `Task.start` (task.py): raises unless the status is ASSIGNED or CREATED,
else moves to IN_PROGRESS and sets `started_at`/`updated_at`. -/
def Task.start (t : Task) (now : DateTime) : MutResult :=
  if ¬ (t.status = .assigned ∨ t.status = .created) then ⟨true, t⟩
  else ⟨false, { t with status := .in_progress, started_at := some now, updated_at := now }⟩

/-- `Task.complete` (task.py): raises unless the status is IN_PROGRESS, else
moves to COMPLETED and records the result. -/
def Task.complete (t : Task) (result : PyDict) (now : DateTime) : MutResult :=
  if t.status ≠ .in_progress then ⟨true, t⟩
  else
    ⟨false,
      { t with
          status := .completed
          result := some result
          completed_at := some now
          updated_at := now }⟩

/-- `Task.fail` (task.py): no precondition check in the source — from any
status it moves to FAILED and records the error. -/
def Task.fail (t : Task) (error : String) (now : DateTime) : MutResult :=
  ⟨false,
    { t with
        status := .failed
        error := some error
        completed_at := some now
        updated_at := now }⟩

/-- `Task.cancel` (task.py): raises when the status is COMPLETED, FAILED or
CANCELLED, else moves to CANCELLED. -/
def Task.cancel (t : Task) (now : DateTime) : MutResult :=
  if t.status = .completed ∨ t.status = .failed ∨ t.status = .cancelled then ⟨true, t⟩
  else ⟨false, { t with status := .cancelled, completed_at := some now, updated_at := now }⟩

/-- `Task.is_completed` (task.py): the status is one of the three terminal ones. -/
def Task.is_completed (t : Task) : Bool :=
  t.status = .completed ∨ t.status = .failed ∨ t.status = .cancelled

/-- A concrete task in COMPLETED status, used to exercise terminal-status calls. -/
def taskDone : Task :=
  { id := "t1", type := .custom, status := .completed, payload := [("x", .vint 1)]
  , assigned_agent := some "a1", result := some [("ok", .vbool true)], error := none
  , metadata := [], created_at := 1, updated_at := 4, started_at := some 2
  , completed_at := some 3 }

/-- A concrete task still in CREATED status. -/
def taskNew : Task :=
  { id := "t2", type := .llm_generation, status := .created, payload := [("x", .vint 1)]
  , assigned_agent := none, result := none, error := none
  , metadata := [], created_at := 1, updated_at := 1, started_at := none
  , completed_at := none }

/-- C1 counterexample: `Task.fail` called on a COMPLETED (terminal) task does
not raise — it succeeds and rewrites the status to FAILED — and `Task.start`
called on a CREATED task does not raise either (the edge CREATED→IN_PROGRESS is
permitted), both contradicting the claim that the methods permit exactly the
edges CREATED→ASSIGNED→IN_PROGRESS→{COMPLETED,FAILED,CANCELLED} and that every
transition call from a terminal status fails. -/
theorem task_fail_from_terminal_succeeds :
    (taskDone.fail "boom" 9).raised = false
    ∧ (taskDone.fail "boom" 9).task.status = .failed
    ∧ (taskNew.start 9).raised = false
    ∧ (taskNew.start 9).task.status = .in_progress := by
  refine ⟨rfl, rfl, rfl, rfl⟩

/-- C1 amended: the transition methods of `Task` permit exactly these edges —
`assign_to` from CREATED only; `start` from CREATED or ASSIGNED; `complete`
from IN_PROGRESS only; `cancel` from any non-terminal status; `fail` from every
status unconditionally (terminal statuses included).  Every refused call raises
and leaves the task unchanged. -/
theorem task_transition_characterization (t : Task) (aid err : String) (res : PyDict)
    (now : DateTime) :
    ((t.assign_to aid now).raised = false ↔ t.status = .created)
    ∧ ((t.start now).raised = false ↔ (t.status = .created ∨ t.status = .assigned))
    ∧ ((t.complete res now).raised = false ↔ t.status = .in_progress)
    ∧ (t.fail err now).raised = false
    ∧ ((t.cancel now).raised = false
        ↔ ¬ (t.status = .completed ∨ t.status = .failed ∨ t.status = .cancelled))
    ∧ ((t.assign_to aid now).raised = true → (t.assign_to aid now).task = t)
    ∧ ((t.start now).raised = true → (t.start now).task = t)
    ∧ ((t.complete res now).raised = true → (t.complete res now).task = t)
    ∧ ((t.cancel now).raised = true → (t.cancel now).task = t) := by
  unfold Task.assign_to Task.start Task.complete Task.fail Task.cancel
  rcases t with ⟨id, ty, st, pl, aa, r, e, md, ca, ua, sa, cpa⟩
  cases st <;> simp

/-- C1 witness: the amended characterization instantiated on a concrete
terminal-status task, discharging the conditional conclusions there. -/
theorem task_transition_characterization_witness :
    ((taskDone.assign_to "a2" 9).raised = false ↔ taskDone.status = .created)
    ∧ ((taskDone.start 9).raised = false
        ↔ (taskDone.status = .created ∨ taskDone.status = .assigned))
    ∧ ((taskDone.complete [] 9).raised = false ↔ taskDone.status = .in_progress)
    ∧ (taskDone.fail "e" 9).raised = false
    ∧ ((taskDone.cancel 9).raised = false
        ↔ ¬ (taskDone.status = .completed ∨ taskDone.status = .failed
              ∨ taskDone.status = .cancelled))
    ∧ ((taskDone.assign_to "a2" 9).raised = true → (taskDone.assign_to "a2" 9).task = taskDone)
    ∧ ((taskDone.start 9).raised = true → (taskDone.start 9).task = taskDone)
    ∧ ((taskDone.complete [] 9).raised = true → (taskDone.complete [] 9).task = taskDone)
    ∧ ((taskDone.cancel 9).raised = true → (taskDone.cancel 9).task = taskDone) :=
  task_transition_characterization taskDone "a2" "e" [] 9

/-- Encode an optional string the way `Task.to_dict` does (`None` stays `None`). -/
def optStr : Option String → PyVal
  | none => .vnone
  | some s => .vstr s

/-- Encode an optional dictionary the way `Task.to_dict` does. -/
def optDict : Option PyDict → PyVal
  | none => .vnone
  | some d => .vdict d

/-- Encode an optional datetime as `x.isoformat() if x else None`, with the
`isoformat` serialization abstracted to the injection `iso`. -/
def optIso (iso : DateTime → String) : Option DateTime → PyVal
  | none => .vnone
  | some d => .vstr (iso d)

/-- `Task.to_dict` (task.py): the twelve-key dictionary, in source order. -/
def Task.to_dict (iso : DateTime → String) (t : Task) : PyDict :=
  [ ("id", .vstr t.id)
  , ("type", .vstr t.type.value)
  , ("status", .vstr t.status.value)
  , ("payload", .vdict t.payload)
  , ("assigned_agent", optStr t.assigned_agent)
  , ("result", optDict t.result)
  , ("error", optStr t.error)
  , ("metadata", .vdict t.metadata)
  , ("created_at", .vstr (iso t.created_at))
  , ("updated_at", .vstr (iso t.updated_at))
  , ("started_at", optIso iso t.started_at)
  , ("completed_at", optIso iso t.completed_at) ]

/-- The `started_at`/`completed_at` decoding in `Task.from_dict`: the slot is
left `None` unless `data.get(key)` is truthy, then `datetime.fromisoformat` is
applied (raising on a malformed string or a non-string, modelled as `error`). -/
def parseOptDT (fromiso : String → Option DateTime) (v : Option PyVal) :
    Except Unit (Option DateTime) :=
  match v with
  | none => .ok none
  | some pv =>
    if pyTruthy pv then
      match pv with
      | .vstr s =>
        match fromiso s with
        | some d => .ok (some d)
        | none => .error ()
      | _ => .error ()
    else .ok none

/-- A string-typed field read with `data.get(key, dflt)`.  A non-string stored
value cannot inhabit the typed model's field and is modelled as an error (the
Python dataclass would accept it unchecked). -/
def parseStrField (v : Option PyVal) (dflt : String) : Except Unit String :=
  match v with
  | none => .ok dflt
  | some (.vstr s) => .ok s
  | some _ => .error ()

/-- An `Optional[str]` field read with `data.get(key)`. -/
def parseOptStrField (v : Option PyVal) : Except Unit (Option String) :=
  match v with
  | none => .ok none
  | some .vnone => .ok none
  | some (.vstr s) => .ok (some s)
  | some _ => .error ()

/-- A dict-typed field read with `data.get(key, {})`. -/
def parseDictField (v : Option PyVal) : Except Unit PyDict :=
  match v with
  | none => .ok []
  | some (.vdict d) => .ok d
  | some _ => .error ()

/-- An `Optional[Dict]` field read with `data.get(key)`. -/
def parseOptDictField (v : Option PyVal) : Except Unit (Option PyDict) :=
  match v with
  | none => .ok none
  | some .vnone => .ok none
  | some (.vdict d) => .ok (some d)
  | some _ => .error ()

/-- `datetime.fromisoformat(data.get(key, utcnow().isoformat()))`: the default
string `dfltIso` is itself parsed, exactly as in the source. -/
def parseDTField (fromiso : String → Option DateTime) (v : Option PyVal)
    (dfltIso : String) : Except Unit DateTime :=
  match v with
  | none =>
    match fromiso dfltIso with
    | some d => .ok d
    | none => .error ()
  | some (.vstr s) =>
    match fromiso s with
    | some d => .ok d
    | none => .error ()
  | some _ => .error ()

/-- `TaskType(data.get("type", TaskType.CUSTOM.value))`: absent key parses the
default string `"custom"`; an unknown or non-string value raises. -/
def parseTaskType (v : Option PyVal) : Except Unit TaskType :=
  match v with
  | none => .ok .custom
  | some (.vstr s) =>
    match TaskType.ofValue s with
    | some ty => .ok ty
    | none => .error ()
  | some _ => .error ()

/-- `TaskStatus(data.get("status", TaskStatus.CREATED.value))`. -/
def parseTaskStatus (v : Option PyVal) : Except Unit TaskStatus :=
  match v with
  | none => .ok .created
  | some (.vstr s) =>
    match TaskStatus.ofValue s with
    | some st => .ok st
    | none => .error ()
  | some _ => .error ()

/-- `Task.from_dict` (task.py): decodes the two optional timestamps first, then
builds the task from the constructor arguments in source order.  `defaultId`
stands for the fresh `uuid4` default and `nowIso` for the
`datetime.utcnow().isoformat()` default of the required timestamps. -/
def Task.from_dict (fromiso : String → Option DateTime) (defaultId nowIso : String)
    (data : PyDict) : Except Unit Task := do
  let started_at ← parseOptDT fromiso (mapGet data "started_at")
  let completed_at ← parseOptDT fromiso (mapGet data "completed_at")
  let id ← parseStrField (mapGet data "id") defaultId
  let ty ← parseTaskType (mapGet data "type")
  let st ← parseTaskStatus (mapGet data "status")
  let payload ← parseDictField (mapGet data "payload")
  let assigned_agent ← parseOptStrField (mapGet data "assigned_agent")
  let result ← parseOptDictField (mapGet data "result")
  let err ← parseOptStrField (mapGet data "error")
  let metadata ← parseDictField (mapGet data "metadata")
  let created_at ← parseDTField fromiso (mapGet data "created_at") nowIso
  let updated_at ← parseDTField fromiso (mapGet data "updated_at") nowIso
  pure
    { id := id, type := ty, status := st, payload := payload
    , assigned_agent := assigned_agent, result := result, error := err
    , metadata := metadata, created_at := created_at, updated_at := updated_at
    , started_at := started_at, completed_at := completed_at }

theorem taskType_ofValue_value (ty : TaskType) : TaskType.ofValue ty.value = some ty := by
  cases ty <;> rfl

theorem taskStatus_ofValue_value (st : TaskStatus) : TaskStatus.ofValue st.value = some st := by
  cases st <;> rfl

/-- C10: `Task.from_dict` inverts `Task.to_dict` field-for-field, for every
task, whenever the datetime serialization round-trips on the task's four
timestamps (which Python's `fromisoformat ∘ isoformat` does). -/
theorem task_dict_roundtrip (iso : DateTime → String) (fromiso : String → Option DateTime)
    (defaultId nowIso : String) (t : Task)
    (hsa : parseOptDT fromiso (some (optIso iso t.started_at)) = Except.ok t.started_at)
    (hcp : parseOptDT fromiso (some (optIso iso t.completed_at)) = Except.ok t.completed_at)
    (hca : fromiso (iso t.created_at) = some t.created_at)
    (hua : fromiso (iso t.updated_at) = some t.updated_at) :
    Task.from_dict fromiso defaultId nowIso (t.to_dict iso) = Except.ok t := by
  rcases t with ⟨id, ty, st, pl, aa, r, e, md, ca, ua, sa, cpa⟩
  simp only [Task.to_dict, Task.from_dict, mapGet, String.reduceEq, reduceIte] at hsa hcp ⊢
  rw [hsa, hcp]
  rcases aa with _ | a <;> rcases r with _ | r <;> rcases e with _ | e <;>
    simp [parseStrField, parseTaskType, parseTaskStatus, parseDictField,
      parseOptStrField, parseOptDictField, parseDTField, optStr, optDict,
      taskType_ofValue_value, taskStatus_ofValue_value, hca, hua] <;> rfl

/-- A concrete injective serialization standing in for `datetime.isoformat`. -/
def isoTick (d : DateTime) : String := String.mk (List.replicate (d + 1) 'a')

/-- The matching parse standing in for `datetime.fromisoformat`. -/
def fromisoTick (s : String) : Option DateTime :=
  if s.length = 0 then none else some (s.length - 1)

/-- C10 witness: the round trip evaluated on a concrete task (with both
optional timestamps set) under the concrete serialization pair. -/
theorem task_dict_roundtrip_witness :
    parseOptDT fromisoTick (some (optIso isoTick taskDone.started_at))
        = Except.ok taskDone.started_at
    ∧ parseOptDT fromisoTick (some (optIso isoTick taskDone.completed_at))
        = Except.ok taskDone.completed_at
    ∧ fromisoTick (isoTick taskDone.created_at) = some taskDone.created_at
    ∧ fromisoTick (isoTick taskDone.updated_at) = some taskDone.updated_at
    ∧ Task.from_dict fromisoTick "fresh" "now" (taskDone.to_dict isoTick)
        = Except.ok taskDone :=
  ⟨by rfl, by rfl, by rfl, by rfl,
    task_dict_roundtrip isoTick fromisoTick "fresh" "now" taskDone
      (by rfl) (by rfl) (by rfl) (by rfl)⟩

/-- `AgentStatus` enum of `king/core/domain/agent.py`. -/
inductive AgentStatus where
  | created
  | active
  | idle
  | busy
  | error
  | stopped
deriving DecidableEq, Repr

/-- The `.value` string of an `AgentStatus` member. -/
def AgentStatus.value : AgentStatus → String
  | .created => "created"
  | .active => "active"
  | .idle => "idle"
  | .busy => "busy"
  | .error => "error"
  | .stopped => "stopped"

/-- `AgentType` enum of `king/core/domain/agent.py`. -/
inductive AgentType where
  | llm
  | task_executor
  | orchestrator
  | rag
  | multimodal
deriving DecidableEq, Repr

/-- The `Agent` dataclass of `king/core/domain/agent.py`. -/
structure Agent where
  id : String
  name : String
  type : AgentType
  status : AgentStatus
  capabilities : PyDict
  metadata : PyDict
  created_at : DateTime
  updated_at : DateTime

/-- `Agent.change_status` (agent.py): a strict no-op when the new status equals
the current one, else sets the status and bumps `updated_at`.  Never raises. -/
def Agent.change_status (a : Agent) (new_status : AgentStatus) (now : DateTime) : Agent :=
  if a.status = new_status then a
  else { a with status := new_status, updated_at := now }

/-- `Agent.has_capability` (agent.py): key membership in the capability dict. -/
def Agent.has_capability (a : Agent) (capability : String) : Bool :=
  (mapGet a.capabilities capability).isSome

/-- `Agent.is_available` (agent.py): status is ACTIVE or IDLE. -/
def Agent.is_available (a : Agent) : Bool :=
  a.status = .active ∨ a.status = .idle

/-- The domain events the claims mention, as published to `EventBus.publish`
(events.py defines more variants; unreferenced ones are omitted). -/
inductive Event where
  | taskCreated (task_id : String) (task_type : String) (payload : PyDict)
  | taskAssigned (task_id : String) (agent_id : String)
  | agentStatusChanged (agent_id : String) (old_status : String) (new_status : String)
      (reason : Option String)
  | messageReceived (message_id : String) (role : String) (content : String)
      (conversation_id : String)
  | messageProcessed (message_id : String) (response : String)

/-- Combined state of the in-memory agent and task repositories
(`in_memory_repositories.py`: insertion-ordered `dict`s keyed by entity id)
together with the log of events handed to `EventBus.publish`. -/
structure OrchState where
  agents : List (String × Agent)
  tasks : List (String × Task)
  published : List Event

/-- `_publish_event` as used by the services: when an event bus is configured
the event is handed to `publish` (failures there are swallowed by the caller),
else nothing happens. -/
def publishEvent (hasBus : Bool) (st : OrchState) (e : Event) : OrchState :=
  if hasBus then { st with published := st.published ++ [e] } else st

/-- `AgentOrchestrator.update_agent_status` (agent_orchestrator.py): loads the
agent (raising when absent), applies `change_status`, persists via
`repository.update` (raising when the id is absent), and — unconditionally,
whether or not the status changed — publishes `AgentStatusChanged` carrying the
old and new status values when an event bus is configured. -/
def update_agent_status (hasBus : Bool) (st : OrchState) (agent_id : String)
    (new_status : AgentStatus) (reason : Option String) (now : DateTime) :
    Except Unit Agent × OrchState :=
  match mapGet st.agents agent_id with
  | none => (.error (), st)
  | some agent =>
    let old_status := agent.status
    let agent2 := agent.change_status new_status now
    match mapGet st.agents agent2.id with
    | none => (.error (), st)
    | some _ =>
      let st1 := { st with agents := mapSet st.agents agent2.id agent2 }
      let st2 := publishEvent hasBus st1
        (.agentStatusChanged agent2.id old_status.value new_status.value reason)
      (.ok agent2, st2)

/-- `InMemoryAgentRepository.get_available`: the agents in ACTIVE or IDLE
status, in repository (insertion) iteration order. -/
def get_available (agents : List (String × Agent)) : List Agent :=
  (agents.map Prod.snd).filter (fun a => a.status = .active ∨ a.status = .idle)

/-- Python truthiness of the `required_capabilities` argument (`None` and the
empty list are falsy). -/
def reqTruthy : Option (List String) → Bool
  | none => false
  | some l => !l.isEmpty

/-- `AgentOrchestrator.find_available_agent` (agent_orchestrator.py): all
available agents; `None` when there are none; with a truthy capability filter
the first agent holding every requested capability (else `None`); without one,
the first available agent. -/
def find_available_agent (st : OrchState) (required_capabilities : Option (List String)) :
    Option Agent :=
  let available_agents := get_available st.agents
  if available_agents.isEmpty then none
  else if reqTruthy required_capabilities then
    available_agents.find? fun agent =>
      (required_capabilities.getD []).all fun cap => agent.has_capability cap
  else available_agents.head?

/-- `AgentOrchestrator.assign_task_to_agent` (agent_orchestrator.py): raises
when the agent is absent or not available, else delegates to `Task.assign_to`
and persists the task (the repository raises on an absent task id). -/
def assign_task_to_agent (st : OrchState) (task : Task) (agent_id : String) (now : DateTime) :
    Except Unit Task × OrchState :=
  match mapGet st.agents agent_id with
  | none => (.error (), st)
  | some agent =>
    if ¬ agent.is_available then (.error (), st)
    else
      let res := task.assign_to agent_id now
      if res.raised then (.error (), st)
      else
        match mapGet st.tasks res.task.id with
        | none => (.error (), st)
        | some _ => (.ok res.task, { st with tasks := mapSet st.tasks res.task.id res.task })

theorem mapGet_mapSet_self {α : Type} (m : List (String × α)) (k : String) (v : α) :
    mapGet (mapSet m k v) k = some v := by
  induction m with
  | nil => simp [mapGet, mapSet]
  | cons hd tl ih =>
    obtain ⟨k1, v1⟩ := hd
    by_cases h : k1 = k <;> simp [mapGet, mapSet, h, ih]

theorem mapSet_self_of_mapGet {α : Type} (m : List (String × α)) (k : String) (v : α)
    (h : mapGet m k = some v) : mapSet m k v = m := by
  induction m with
  | nil => simp [mapGet] at h
  | cons hd tl ih =>
    obtain ⟨k1, v1⟩ := hd
    by_cases hk : k1 = k
    · simp [mapGet, hk] at h
      simp [mapSet, hk, h]
    · simp [mapGet, hk] at h
      simp [mapSet, hk, ih h]

/-- A concrete ACTIVE agent. -/
def agentA : Agent :=
  { id := "a1", name := "worker", type := .llm, status := .active
  , capabilities := [("gen", .vbool true)], metadata := []
  , created_at := 1, updated_at := 1 }

/-- A repository state holding just `agentA`. -/
def orchSt0 : OrchState := { agents := [("a1", agentA)], tasks := [], published := [] }

/-- C4 counterexample: calling `update_agent_status` twice in a row with the
same target status ACTIVE publishes an `AgentStatusChanged` event on the
second call as well (with `old_status = new_status`), so the second call is
not a complete no-op. -/
theorem update_same_status_second_call_publishes :
    (update_agent_status true
        (update_agent_status true orchSt0 "a1" .active (some "warm-up") 5).2
        "a1" .active (some "warm-up") 6).2.published
      = [.agentStatusChanged "a1" "active" "active" (some "warm-up"),
         .agentStatusChanged "a1" "active" "active" (some "warm-up")] := by
  rfl

/-- C4 amended: when the target status equals the agent's current status the
entity itself is untouched — the call returns the agent with status and
`updated_at` unchanged and the repository still maps the id to the very same
agent — but the call is not a no-op: it re-persists the agent and still
publishes an `AgentStatusChanged` event with `old_status = new_status`. -/
theorem update_same_status_keeps_agent_but_publishes (st : OrchState) (agent_id : String)
    (a : Agent) (s : AgentStatus) (reason : Option String) (now : DateTime)
    (ha : mapGet st.agents agent_id = some a) (hid : a.id = agent_id) (hs : a.status = s) :
    update_agent_status true st agent_id s reason now
      = (.ok a,
         { st with published :=
            st.published ++ [.agentStatusChanged agent_id s.value s.value reason] }) := by
  have hch : a.change_status s now = a := by simp [Agent.change_status, hs]
  simp only [update_agent_status, ha, hch, hid, mapSet_self_of_mapGet st.agents agent_id a ha,
    publishEvent, if_true, hs]

/-- C4 witness: the amended statement evaluated on the concrete one-agent
repository. -/
theorem update_same_status_keeps_agent_but_publishes_witness :
    mapGet orchSt0.agents "a1" = some agentA ∧ agentA.id = "a1" ∧ agentA.status = .active
    ∧ update_agent_status true orchSt0 "a1" .active (some "warm-up") 5
        = (.ok agentA,
           { orchSt0 with published :=
              orchSt0.published
                ++ [.agentStatusChanged "a1" "active" "active" (some "warm-up")] }) :=
  ⟨rfl, rfl, rfl,
    update_same_status_keeps_agent_but_publishes orchSt0 "a1" agentA .active
      (some "warm-up") 5 rfl rfl rfl⟩

theorem head?_filter_eq_find? {α : Type} (p : α → Bool) (l : List α) :
    (l.filter p).head? = l.find? p := by
  induction l with
  | nil => rfl
  | cons hd tl ih =>
    by_cases h : p hd <;> simp [List.filter, List.find?, h, ih]

theorem get_available_eq_filter (agents : List (String × Agent)) :
    get_available agents = (agents.map Prod.snd).filter Agent.is_available := by
  rfl

theorem find_available_agent_none_eq (st : OrchState) :
    find_available_agent st none = (st.agents.map Prod.snd).find? Agent.is_available := by
  simp only [find_available_agent, get_available_eq_filter]
  by_cases hempty : ((st.agents.map Prod.snd).filter Agent.is_available).isEmpty
  · rw [if_pos hempty]
    rw [List.isEmpty_iff] at hempty
    rw [← head?_filter_eq_find?, hempty]
    rfl
  · rw [if_neg hempty, if_neg (by simp [reqTruthy])]
    exact head?_filter_eq_find? Agent.is_available (st.agents.map Prod.snd)

/-- C6: for every repository state, whenever `find_available_agent` returns an
agent under a non-empty capability filter, that agent is ACTIVE or IDLE and
holds every requested capability; and — unconditionally, for every state, the
empty repository included — with no filter the call returns exactly the first
ACTIVE/IDLE agent in repository iteration order (`none` when there is none). -/
theorem find_available_agent_spec (st : OrchState) (caps : List String) (a : Agent) :
    (caps ≠ [] → find_available_agent st (some caps) = some a →
      (a.status = .active ∨ a.status = .idle) ∧ caps.all a.has_capability = true)
    ∧ find_available_agent st none = (st.agents.map Prod.snd).find? Agent.is_available := by
  refine ⟨fun hne hfound => ?_, find_available_agent_none_eq st⟩
  have hreq : reqTruthy (some caps) = true := by
    simp [reqTruthy, List.isEmpty_iff, hne]
  constructor
  · by_cases hempty : (get_available st.agents).isEmpty
    · simp [find_available_agent, hempty] at hfound
    · simp only [find_available_agent, hempty, hreq, if_false, if_true] at hfound
      have hmem := List.mem_of_find?_eq_some hfound
      rw [get_available_eq_filter] at hmem
      have := (List.mem_filter.mp hmem).2
      simpa [Agent.is_available] using this
  · by_cases hempty : (get_available st.agents).isEmpty
    · simp [find_available_agent, hempty] at hfound
    · simp only [find_available_agent, hempty, hreq, if_false, if_true] at hfound
      have := List.find?_some hfound
      simpa [Option.getD] using this

/-- An IDLE agent lacking the "gen" capability, listed before `agentA`. -/
def agentB : Agent :=
  { id := "a0", name := "plain", type := .task_executor, status := .idle
  , capabilities := [("sort", .vint 1)], metadata := []
  , created_at := 1, updated_at := 1 }

/-- A repository holding `agentB` (first) and `agentA` (second). -/
def orchSt2 : OrchState :=
  { agents := [("a0", agentB), ("a1", agentA)], tasks := [], published := [] }

/-- A repository with no agents at all. -/
def orchStEmpty : OrchState := { agents := [], tasks := [], published := [] }

/-- C6 witness: on the two-agent repository, the filter `["gen"]` skips the
first (IDLE but capability-less) agent and returns `agentA`, which is ACTIVE
and holds the capability; the unfiltered call returns the first available
agent; and on the empty repository the unfiltered call returns `none`. -/
theorem find_available_agent_spec_witness :
    (["gen"] ≠ ([] : List String)
      ∧ find_available_agent orchSt2 (some ["gen"]) = some agentA)
    ∧ ((agentA.status = .active ∨ agentA.status = .idle)
        ∧ List.all ["gen"] agentA.has_capability = true)
    ∧ find_available_agent orchSt2 none
        = (orchSt2.agents.map Prod.snd).find? Agent.is_available
    ∧ find_available_agent orchStEmpty none
        = (orchStEmpty.agents.map Prod.snd).find? Agent.is_available
    ∧ find_available_agent orchStEmpty none = none :=
  ⟨⟨by decide, by rfl⟩,
    (find_available_agent_spec orchSt2 ["gen"] agentA).1 (by decide) (by rfl),
    (find_available_agent_spec orchSt2 ["gen"] agentA).2,
    (find_available_agent_spec orchStEmpty ["gen"] agentA).2,
    by rfl⟩

/-- Configuration of a `TaskScheduler`: whether an `agent_orchestrator` and an
`event_bus` were passed to the constructor (both optional in the source). -/
structure SchedConfig where
  hasOrchestrator : Bool
  hasBus : Bool

/-- `task.metadata.get("required_capabilities")` as consumed by
`find_available_agent`; only a list-of-strings value is modelled (the claims
never exercise other value shapes on this path). -/
def getRequiredCaps (metadata : PyDict) : Option (List String) :=
  match mapGet metadata "required_capabilities" with
  | some (.vlist vs) =>
    some (vs.filterMap fun v => match v with | .vstr s => some s | _ => none)
  | _ => none

/-- `TaskScheduler.schedule_task` (task_scheduler.py): `None` when the task id
is absent; the task unchanged when its status is not CREATED; the task
unchanged when no orchestrator is configured or no available agent matches;
otherwise assignment through `assign_task_to_agent` (on an exception the
`except` branch returns the original task and no event is published) followed
by a `TaskAssigned` publication. -/
def schedule_task (cfg : SchedConfig) (st : OrchState) (task_id : String) (now : DateTime) :
    Option Task × OrchState :=
  match mapGet st.tasks task_id with
  | none => (none, st)
  | some task =>
    if task.status ≠ .created then (some task, st)
    else
      let required_capabilities := getRequiredCaps task.metadata
      let agent? := if cfg.hasOrchestrator
        then find_available_agent st required_capabilities else none
      match agent? with
      | none => (some task, st)
      | some agent =>
        if cfg.hasOrchestrator then
          match assign_task_to_agent st task agent.id now with
          | (.error _, _) => (some task, st)
          | (.ok task2, st1) =>
            let st2 := publishEvent cfg.hasBus st1 (.taskAssigned task2.id agent.id)
            (some task2, st2)
        else
          -- the `else` arm of the source's inner `if self.agent_orchestrator`;
          -- unreachable here because `agent?` is `none` without an orchestrator
          let res := task.assign_to agent.id now
          if res.raised then (some task, st)
          else
            match mapGet st.tasks res.task.id with
            | none => (some task, st)
            | some _ =>
              let st1 := { st with tasks := mapSet st.tasks res.task.id res.task }
              let st2 := publishEvent cfg.hasBus st1 (.taskAssigned res.task.id agent.id)
              (some res.task, st2)

/-- `TaskScheduler.create_task` (task_scheduler.py): constructs the task in
CREATED status with `{**(metadata or {}), "priority": priority}` as metadata,
persists it, publishes `TaskCreated` when a bus is configured, then — when an
orchestrator is configured — immediately tries `schedule_task` on it.  The
source performs no validation of `payload` whatsoever.  `freshId` stands for
the `uuid4` default id.  (The source returns its local `task` object, which
the in-memory repository aliases; the returned value here is the task as
constructed, which the claims compare before auto-scheduling.) -/
def create_task (cfg : SchedConfig) (st : OrchState) (task_type : TaskType) (payload : PyDict)
    (priority : Int) (metadata : Option PyDict) (freshId : String) (now : DateTime) :
    Task × OrchState :=
  let task : Task :=
    { id := freshId, type := task_type, status := .created, payload := payload
    , assigned_agent := none, result := none, error := none
    , metadata := mapSet (metadata.getD []) "priority" (.vint priority)
    , created_at := now, updated_at := now, started_at := none, completed_at := none }
  let st1 := { st with tasks := mapSet st.tasks task.id task }
  let st2 := publishEvent cfg.hasBus st1 (.taskCreated task.id task.type.value task.payload)
  let st3 := if cfg.hasOrchestrator then (schedule_task cfg st2 task.id now).2 else st2
  (task, st3)

/-- An empty-repository state. -/
def schedSt0 : OrchState := { agents := [], tasks := [], published := [] }

/-- C2 counterexample: `create_task` called with the empty payload mapping does
not fail — no `ValidationError` exists anywhere on this path — and the task IS
persisted in CREATED status and `TaskCreated` IS published. -/
theorem create_task_empty_payload_accepted :
    (create_task ⟨false, true⟩ schedSt0 .custom [] 0 none "t9" 7).1.status = .created
    ∧ (mapGet (create_task ⟨false, true⟩ schedSt0 .custom [] 0 none "t9" 7).2.tasks "t9").isSome
        = true
    ∧ (create_task ⟨false, true⟩ schedSt0 .custom [] 0 none "t9" 7).2.published
        = [.taskCreated "t9" "custom" []] := by
  exact ⟨rfl, rfl, rfl⟩

/-- C2 amended: `create_task` validates nothing: for every payload, the empty
mapping included, it persists a task in CREATED status with the priority folded
into the metadata under the "priority" key and publishes `TaskCreated`
(configuration: event bus present, auto-scheduling off so the persisted task
is exactly the constructed one). -/
theorem create_task_persists_and_publishes (st : OrchState) (task_type : TaskType)
    (payload : PyDict) (priority : Int) (metadata : Option PyDict) (freshId : String)
    (now : DateTime) :
    ((create_task ⟨false, true⟩ st task_type payload priority metadata freshId now).1.status
        = .created)
    ∧ ((create_task ⟨false, true⟩ st task_type payload priority metadata freshId now).1.metadata
        = mapSet (metadata.getD []) "priority" (.vint priority))
    ∧ (mapGet (create_task ⟨false, true⟩ st task_type payload priority metadata freshId now).2.tasks
          freshId
        = some (create_task ⟨false, true⟩ st task_type payload priority metadata freshId now).1)
    ∧ ((create_task ⟨false, true⟩ st task_type payload priority metadata freshId now).2.published
        = st.published ++ [.taskCreated freshId task_type.value payload]) := by
  refine ⟨rfl, rfl, ?_, rfl⟩
  simp [create_task, publishEvent, mapGet_mapSet_self]

/-- C7: `schedule_task` on a task whose status is not CREATED returns the task
unchanged and leaves the whole state — repositories and published events —
untouched; a repeated call is therefore the identity again. -/
theorem schedule_task_noop_on_non_created (cfg : SchedConfig) (st : OrchState)
    (task_id : String) (t : Task) (now now2 : DateTime)
    (ht : mapGet st.tasks task_id = some t) (hst : t.status ≠ .created) :
    schedule_task cfg st task_id now = (some t, st)
    ∧ schedule_task cfg (schedule_task cfg st task_id now).2 task_id now2 = (some t, st) := by
  have h1 : schedule_task cfg st task_id now = (some t, st) := by
    simp [schedule_task, ht, hst]
  exact ⟨h1, by rw [h1]; simp [schedule_task, ht, hst]⟩

/-- A state whose task repository holds the COMPLETED `taskDone`. -/
def schedSt1 : OrchState :=
  { agents := [("a1", agentA)], tasks := [("t1", taskDone)], published := [] }

/-- C7 witness: scheduling the already-COMPLETED task twice on a concrete
state returns it unchanged both times with the state untouched. -/
theorem schedule_task_noop_on_non_created_witness :
    mapGet schedSt1.tasks "t1" = some taskDone
    ∧ taskDone.status ≠ .created
    ∧ schedule_task ⟨true, true⟩ schedSt1 "t1" 8 = (some taskDone, schedSt1)
    ∧ schedule_task ⟨true, true⟩ (schedule_task ⟨true, true⟩ schedSt1 "t1" 8).2 "t1" 9
        = (some taskDone, schedSt1) :=
  ⟨rfl, by decide,
    (schedule_task_noop_on_non_created ⟨true, true⟩ schedSt1 "t1" taskDone 8 9 rfl
      (by decide)).1,
    (schedule_task_noop_on_non_created ⟨true, true⟩ schedSt1 "t1" taskDone 8 9 rfl
      (by decide)).2⟩

/-- The `Message` dataclass of `king/core/domain/message.py`. -/
structure Message where
  id : String
  role : String
  content : String
  timestamp : DateTime
  metadata : PyDict
  conversation_id : Option String

/-- The `Conversation` dataclass of `king/core/domain/message.py`.  Its fields
are exactly `id`, `messages`, `context`, `created_at`, `updated_at` — there is
no `metadata` field. -/
structure Conversation where
  id : String
  messages : List Message
  context : PyDict
  created_at : DateTime
  updated_at : DateTime

/-- `Conversation.add_message` (message.py): sets the message's
`conversation_id` to the conversation's own id, appends it, and bumps
`updated_at`.  Returns the updated conversation and the (mutated) message. -/
def Conversation.add_message (c : Conversation) (m : Message) (now : DateTime) :
    Conversation × Message :=
  let m2 := { m with conversation_id := some c.id }
  ({ c with messages := c.messages ++ [m2], updated_at := now }, m2)

/-- State of the in-memory message repository
(`InMemoryMessageRepository._messages` / `._conversations`) together with the
log of events handed to `EventBus.publish`. -/
structure MsgState where
  messages : List (String × Message)
  conversations : List (String × Conversation)
  published : List Event

/-- `_publish_event` of the message processor (bus configured → append). -/
def publishEventMsg (hasBus : Bool) (st : MsgState) (e : Event) : MsgState :=
  if hasBus then { st with published := st.published ++ [e] } else st

/-- `InMemoryMessageRepository.add_message_to_conversation`: raises when the
conversation id is absent, else appends via `Conversation.add_message` and
re-persists the (mutated) message under its id. -/
def add_message_to_conversation (st : MsgState) (conversation_id : String) (message : Message)
    (now : DateTime) : Except Unit Message × MsgState :=
  match mapGet st.conversations conversation_id with
  | none => (.error (), st)
  | some conversation =>
    let cm := conversation.add_message message now
    let st1 := { st with conversations := mapSet st.conversations conversation_id cm.1 }
    let st2 := { st1 with messages := mapSet st1.messages cm.2.id cm.2 }
    (.ok cm.2, st2)

/-- `InMemoryMessageRepository.get_conversation_messages`: the stored messages
whose `conversation_id` matches, sorted (stably) by timestamp, then sliced
`[skip : skip + limit]`. -/
def get_conversation_messages (messages : List (String × Message)) (conversation_id : String)
    (skip limit : Nat) : List Message :=
  let msgs := (messages.map Prod.snd).filter fun m => m.conversation_id = some conversation_id
  let sorted := msgs.mergeSort fun m1 m2 => m1.timestamp ≤ m2.timestamp
  (sorted.drop skip).take limit

/-- The per-message context records handed to `LLMService.generate` by
`_generate_response`: fresh `Message(role=..., content=..., timestamp=...)`
objects whose remaining fields are defaults, abstracted to the three fields the
construction sets. -/
structure CtxMsg where
  role : String
  content : String
  timestamp : DateTime

/-- The list-comprehension in `_generate_response` building the LLM context. -/
def toLLMContext (msgs : List Message) : List CtxMsg :=
  msgs.map fun m => ⟨m.role, m.content, m.timestamp⟩

/-- The `LLMResponse` shape consumed by `_generate_response` (content plus the
optional model name and token count recorded in the reply's metadata). -/
structure LLMResponse where
  content : String
  model : Option String
  tokens_used : Option Int

/-- The configured generation capability: `LLMService.generate` re-raises any
failure, so from the processor's view it is a fallible function of the prompt
and the conversation context. -/
abbrev LLMGen := String → List CtxMsg → Except Unit LLMResponse

/-- Configuration of a `MessageProcessor`: event bus present, and the optional
LLM service. -/
structure MsgConfig where
  hasBus : Bool
  llm : Option LLMGen

/-- Encode an optional int the way the assistant metadata stores
`tokens_used`. -/
def optInt : Option Int → PyVal
  | none => .vnone
  | some n => .vint n

/-- The inbound `Message(...)` construction of `process_message`. -/
def inbound_message (content role : String) (conversation_id : String) (metadata : PyDict)
    (freshMsgId : String) (now : DateTime) : Message :=
  { id := freshMsgId, role := role, content := content, timestamp := now
  , metadata := metadata, conversation_id := some conversation_id }

/-- `MessageProcessor._generate_response` (message_processor.py): loads the
conversation history, builds the LLM context, calls the generation capability
(`raise` on failure, after logging — modelled as the error result), else
persists and appends the assistant message and publishes `MessageProcessed`. -/
def generate_response (cfg : MsgConfig) (g : LLMGen) (st : MsgState)
    (conversation : Conversation) (user_message : Message) (freshAsstId : String)
    (now : DateTime) : Except Unit Unit × MsgState :=
  let messages := get_conversation_messages st.messages conversation.id 0 100
  let context := toLLMContext messages
  match g user_message.content context with
  | .error e => (.error e, st)
  | .ok response =>
    let assistant_message : Message :=
      { id := freshAsstId, role := "assistant", content := response.content
      , timestamp := now
      , metadata := [("model", optStr response.model), ("tokens_used", optInt response.tokens_used)]
      , conversation_id := some conversation.id }
    let st1 := { st with messages := mapSet st.messages assistant_message.id assistant_message }
    match add_message_to_conversation st1 conversation.id assistant_message now with
    | (.error e, st2) => (.error e, st2)
    | (.ok _, st2) =>
      let st3 := publishEventMsg cfg.hasBus st2
        (.messageProcessed user_message.id response.content)
      (.ok (), st3)

/-- `MessageProcessor.process_message` (message_processor.py).  When
`conversation_id` is absent or unresolved the source executes
`Conversation(metadata=metadata or {})`; the `Conversation` dataclass has no
`metadata` field, so that constructor call raises `TypeError` before any state
change — modelled as the error result with the state untouched.  Otherwise the
inbound message is persisted, appended to the conversation, `MessageReceived`
is published, and for a user message with a configured LLM a reply is driven
through `generate_response`, whose failure propagates. -/
def process_message (cfg : MsgConfig) (st : MsgState) (content role : String)
    (conversation_id : Option String) (metadata : Option PyDict)
    (freshMsgId freshAsstId : String) (now : DateTime) :
    Except Unit Message × MsgState :=
  let conversation? :=
    match conversation_id with
    | some cid => mapGet st.conversations cid
    | none => none
  match conversation? with
  | none => (.error (), st)
  | some conversation =>
    let message := inbound_message content role conversation.id (metadata.getD [])
      freshMsgId now
    let st1 := { st with messages := mapSet st.messages message.id message }
    match add_message_to_conversation st1 conversation.id message now with
    | (.error e, st2) => (.error e, st2)
    | (.ok message2, st2) =>
      let st3 := publishEventMsg cfg.hasBus st2
        (.messageReceived message2.id message2.role message2.content conversation.id)
      match (if role = "user" then cfg.llm else none) with
      | none => (.ok message2, st3)
      | some g =>
        match generate_response cfg g st3 conversation message2 freshAsstId now with
        | (.error e, st4) => (.error e, st4)
        | (.ok _, st4) => (.ok message2, st4)

/-- An empty message-repository state. -/
def msgSt0 : MsgState := { messages := [], conversations := [], published := [] }

/-- C3: the conversation-creation path of `process_message` raises instead of
creating a conversation — `Conversation(metadata=...)` passes a keyword the
dataclass does not declare, a `TypeError` — for an absent `conversation_id`
and for one that resolves to nothing alike, and no state change happens. -/
theorem process_message_new_conversation_raises :
    process_message ⟨true, none⟩ msgSt0 "hello" "user" none none "m9" "m10" 3
      = (.error (), msgSt0)
    ∧ process_message ⟨true, none⟩ msgSt0 "hello" "user" (some "missing") none "m9" "m10" 3
      = (.error (), msgSt0) :=
  ⟨rfl, rfl⟩

theorem mapSet_mapSet_self {α : Type} (m : List (String × α)) (k : String) (v v2 : α) :
    mapSet (mapSet m k v) k v2 = mapSet m k v2 := by
  induction m with
  | nil => simp [mapSet]
  | cons hd tl ih =>
    obtain ⟨k1, v1⟩ := hd
    by_cases h : k1 = k <;> simp [mapSet, h, ih]

/-- C9: for a user message into an existing conversation with a configured
generation capability whose call fails, `process_message` propagates the
failure, yet the final state shows the inbound message persisted, appended to
the conversation, and `MessageReceived` published — and shows equally that no
assistant message was stored and no `MessageProcessed` event was appended. -/
theorem process_message_generation_failure_keeps_inbound (g : LLMGen) (st : MsgState)
    (content cid : String) (conv : Conversation) (metadata : Option PyDict)
    (freshMsgId freshAsstId : String) (now : DateTime)
    (hcv : mapGet st.conversations cid = some conv) (hid : conv.id = cid)
    (hgen : g content
        (toLLMContext (get_conversation_messages
          (mapSet st.messages freshMsgId
            (inbound_message content "user" cid (metadata.getD []) freshMsgId now))
          cid 0 100))
      = .error ()) :
    process_message ⟨true, some g⟩ st content "user" (some cid) metadata
        freshMsgId freshAsstId now
      = (.error (),
         { messages := mapSet st.messages freshMsgId
             (inbound_message content "user" cid (metadata.getD []) freshMsgId now)
         , conversations := mapSet st.conversations cid
             { conv with
                 messages := conv.messages
                   ++ [inbound_message content "user" cid (metadata.getD []) freshMsgId now]
                 updated_at := now }
         , published := st.published ++ [.messageReceived freshMsgId "user" content cid] }) := by
  subst hid
  simp only [inbound_message] at hgen
  simp only [process_message, hcv, inbound_message, add_message_to_conversation,
    Conversation.add_message, mapGet_mapSet_self, publishEventMsg, generate_response,
    mapSet_mapSet_self, hgen, if_true]

/-- An existing empty conversation. -/
def conv1 : Conversation := { id := "c1", messages := [], context := [], created_at := 1, updated_at := 1 }

/-- A state holding just `conv1`. -/
def msgSt1 : MsgState := { messages := [], conversations := [("c1", conv1)], published := [] }

/-- A generation capability that always fails. -/
def genFail : LLMGen := fun _ _ => .error ()

/-- C9 witness: the failing-generation theorem evaluated on the concrete
one-conversation state. -/
theorem process_message_generation_failure_keeps_inbound_witness :
    mapGet msgSt1.conversations "c1" = some conv1
    ∧ conv1.id = "c1"
    ∧ genFail "hi"
        (toLLMContext (get_conversation_messages
          (mapSet msgSt1.messages "m1" (inbound_message "hi" "user" "c1" [] "m1" 2)) "c1" 0 100))
      = .error ()
    ∧ process_message ⟨true, some genFail⟩ msgSt1 "hi" "user" (some "c1") none "m1" "m2" 2
      = (.error (),
         { messages := mapSet msgSt1.messages "m1" (inbound_message "hi" "user" "c1" [] "m1" 2)
         , conversations := mapSet msgSt1.conversations "c1"
             { conv1 with
                 messages := conv1.messages ++ [inbound_message "hi" "user" "c1" [] "m1" 2]
                 updated_at := 2 }
         , published := msgSt1.published ++ [.messageReceived "m1" "user" "hi" "c1"] }) :=
  ⟨rfl, rfl, rfl,
    process_message_generation_failure_keeps_inbound genFail msgSt1 "hi" "c1" conv1 none
      "m1" "m2" 2 rfl rfl rfl⟩

/-- `event.event_type`: set to the concrete event class name by
`DomainEvent.__post_init__` (events.py). -/
def Event.event_type : Event → String
  | .taskCreated .. => "TaskCreated"
  | .taskAssigned .. => "TaskAssigned"
  | .agentStatusChanged .. => "AgentStatusChanged"
  | .messageReceived .. => "MessageReceived"
  | .messageProcessed .. => "MessageProcessed"

/-- An event-bus handler: an identifier plus whether the handler raises on a
given event.  Every handler invocation in the source is wrapped in
`try/except` that logs and continues, so a raise never influences control
flow; the field exists so theorems quantify over arbitrary raising
behaviour. -/
structure Handler where
  id : Nat
  raises : Event → Bool

/-- The `EventBus` (event_bus.py) together with the bookkeeping an execution
needs: `queue`/`unfinished` model the `asyncio.Queue` contents and its
`join()` counter (incremented by `put`, decremented by `task_done`);
`processing` is `_processing` (set only once the consumption coroutine first
runs); `consumerCreated` records that `asyncio.create_task` was issued;
`syncLog`/`asyncLog` record every immediate/deferred handler invocation in
order. -/
structure EventBus where
  handlers : List (String × List Handler)
  asyncHandlers : List (String × List Handler)
  queue : List Event
  unfinished : Nat
  processing : Bool
  consumerCreated : Bool
  syncLog : List (Nat × Event)
  asyncLog : List (Nat × Event)

/-- Invoke each handler of a list on an event, appending to the invocation
log; a raising handler is logged and isolated exactly like a succeeding one
(the source catches every handler exception). -/
def invokeHandlers (log : List (Nat × Event)) (hs : List Handler) (e : Event) :
    List (Nat × Event) :=
  log ++ hs.map fun h => (h.id, e)

/-- `EventBus.subscribe` (event_bus.py): appends the handler to the map for
the event type; a deferred subscription with `_processing` still false issues
`asyncio.create_task(self._process_event_queue())` — which only schedules the
coroutine; `_processing` itself stays false until the loop first runs. -/
def subscribe (b : EventBus) (event_type : String) (h : Handler)
    (async_processing : Bool) : EventBus :=
  let b1 := if async_processing
    then { b with asyncHandlers :=
            mapSet b.asyncHandlers event_type ((mapGet b.asyncHandlers event_type).getD [] ++ [h]) }
    else { b with handlers :=
            mapSet b.handlers event_type ((mapGet b.handlers event_type).getD [] ++ [h]) }
  if async_processing ∧ ¬ b1.processing then { b1 with consumerCreated := true } else b1

/-- `EventBus.publish` (event_bus.py): immediate handlers for the type run
first, each isolated by `try/except`; then, when the type has any deferred
registration, the event is enqueued (`await put` never suspends on an
unbounded queue) and the queue's unfinished-task counter grows. -/
def publish (b : EventBus) (e : Event) : EventBus :=
  let b1 := match mapGet b.handlers e.event_type with
    | none => b
    | some hs => { b with syncLog := invokeHandlers b.syncLog hs e }
  match mapGet b1.asyncHandlers e.event_type with
  | none => b1
  | some _ => { b1 with queue := b1.queue ++ [e], unfinished := b1.unfinished + 1 }

/-- The first lines of `_process_event_queue` executing once the event loop
first schedules the created task: `self._processing = True`. -/
def consumerRunStart (b : EventBus) : EventBus := { b with processing := true }

/-- One iteration of the `while True` body of `_process_event_queue`: `get` an
event, invoke every deferred handler for its type (each isolated by
`try/except`), then `task_done()`. -/
def processOneEvent (b : EventBus) : EventBus :=
  match b.queue with
  | [] => b
  | e :: rest =>
    let b1 := { b with queue := rest }
    let b2 := match mapGet b1.asyncHandlers e.event_type with
      | none => b1
      | some hs => { b1 with asyncLog := invokeHandlers b1.asyncLog hs e }
    { b2 with unfinished := b2.unfinished - 1 }

def drainAux : Nat → EventBus → EventBus
  | 0, b => b
  | n + 1, b => drainAux n (processOneEvent b)

/-- The consumption loop running uninterrupted until the queue is empty. -/
def drainQueue (b : EventBus) : EventBus := drainAux b.queue.length b

/-- `EventBus.stop` (event_bus.py): an immediate return when `_processing` is
false; otherwise the loop task is cancelled first (it exits at its
`queue.get()` suspension point) and only then, when the queue is non-empty,
the call awaits `queue.join()` — which, with the sole consumer just
cancelled, completes only if the unfinished-task counter is already zero.
`none` models a call that never returns. -/
def stop (b : EventBus) : Option EventBus :=
  if ¬ b.processing then some b
  else
    let b1 := { b with processing := false }
    if b1.queue.isEmpty then some b1
    else if b1.unfinished = 0 then some b1
    else none

/-- A freshly constructed bus. -/
def busFresh : EventBus :=
  { handlers := [], asyncHandlers := [], queue := [], unfinished := 0
  , processing := false, consumerCreated := false, syncLog := [], asyncLog := [] }

/-- A handler that never raises. -/
def hOk : Handler := ⟨1, fun _ => false⟩

/-- A handler that raises on every invocation. -/
def hBad : Handler := ⟨2, fun _ => true⟩

/-- A sample event. -/
def evA : Event := .taskCreated "t1" "custom" []

/-- C5: the deterministic trace `await subscribe(..., deferred)`,
`await publish(e)`, `await stop()` — none of these reaches a suspension
point, so the consumption task created by `subscribe` has not run and
`_processing` is still false — makes `stop` return immediately with the
published event still sitting in the queue, never delivered to the deferred
handler. -/
theorem stop_returns_with_undelivered_event :
    stop (publish (subscribe busFresh "TaskCreated" hOk true) evA)
      = some (publish (subscribe busFresh "TaskCreated" hOk true) evA)
    ∧ (publish (subscribe busFresh "TaskCreated" hOk true) evA).queue = [evA]
    ∧ (publish (subscribe busFresh "TaskCreated" hOk true) evA).asyncLog = []
    ∧ (publish (subscribe busFresh "TaskCreated" hOk true) evA).consumerCreated = true := by
  exact ⟨rfl, rfl, rfl, rfl⟩

/-- The deferred invocations produced by delivering a list of events, in
order, to a fixed handler list: events outermost, registration order inside. -/
def invocationsOf (hs : List Handler) : List Event → List (Nat × Event)
  | [] => []
  | e :: rest => (hs.map fun h => (h.id, e)) ++ invocationsOf hs rest

/-- `publish` folded over a list of events. -/
def publishAll (b : EventBus) (es : List Event) : EventBus := es.foldl publish b

/-- The subsequence of an invocation log belonging to one handler id. -/
def handlerSeen (log : List (Nat × Event)) (hid : Nat) : List Event :=
  (log.filter fun p => p.1 == hid).map Prod.snd

theorem publish_preserves (b : EventBus) (e : Event) :
    (publish b e).asyncHandlers = b.asyncHandlers
    ∧ (publish b e).asyncLog = b.asyncLog := by
  unfold publish
  cases mapGet b.handlers e.event_type <;>
    cases hma : mapGet b.asyncHandlers e.event_type <;> simp [hma]

theorem publish_queue_of_registered (b : EventBus) (e : Event)
    (h : (mapGet b.asyncHandlers e.event_type).isSome) :
    (publish b e).queue = b.queue ++ [e] := by
  unfold publish
  cases mapGet b.handlers e.event_type <;>
    cases hma : mapGet b.asyncHandlers e.event_type <;> simp [hma] <;> simp [hma] at h

theorem publishAll_spec (τ : String) (hs : List Handler) (es : List Event) :
    ∀ b : EventBus, mapGet b.asyncHandlers τ = some hs
    → (es.all fun e => e.event_type == τ) = true
    → (publishAll b es).asyncHandlers = b.asyncHandlers
      ∧ (publishAll b es).queue = b.queue ++ es
      ∧ (publishAll b es).asyncLog = b.asyncLog := by
  induction es with
  | nil => intro b _ _; simp [publishAll]
  | cons e rest ih =>
    intro b hτ hall
    simp only [List.all_cons, Bool.and_eq_true, beq_iff_eq] at hall
    obtain ⟨hety, hrest⟩ := hall
    have hpres := publish_preserves b e
    have hq : (publish b e).queue = b.queue ++ [e] :=
      publish_queue_of_registered b e (by rw [hety, hτ]; rfl)
    have hstep : publishAll b (e :: rest) = publishAll (publish b e) rest := rfl
    have := ih (publish b e) (by rw [hpres.1, hτ]) (by simpa using hrest)
    rw [hstep]
    refine ⟨by rw [this.1, hpres.1], ?_, by rw [this.2.2, hpres.2]⟩
    rw [this.2.1, hq]
    simp

theorem drain_spec (τ : String) (hs : List Handler) (es : List Event) :
    ∀ b : EventBus, b.queue = es
    → mapGet b.asyncHandlers τ = some hs
    → (es.all fun e => e.event_type == τ) = true
    → (drainQueue b).asyncLog = b.asyncLog ++ invocationsOf hs es
      ∧ (drainQueue b).queue = [] := by
  induction es with
  | nil =>
    intro b hq _ _
    simp [drainQueue, hq, drainAux, invocationsOf]
  | cons e rest ih =>
    intro b hq hτ hall
    simp only [List.all_cons, Bool.and_eq_true, beq_iff_eq] at hall
    obtain ⟨hety, hrest⟩ := hall
    have hone : processOneEvent b =
        { b with
            queue := rest
            asyncLog := invokeHandlers b.asyncLog hs e
            unfinished := b.unfinished - 1 } := by
      unfold processOneEvent
      rw [hq]
      simp only [hety, hτ]
    have hlen : b.queue.length = rest.length + 1 := by rw [hq]; rfl
    have hdrain : drainQueue b = drainAux rest.length (processOneEvent b) := by
      unfold drainQueue
      rw [hlen]
      rfl
    have hrecq : (processOneEvent b).queue = rest := by rw [hone]
    have hrecl : drainQueue (processOneEvent b) = drainAux rest.length (processOneEvent b) := by
      unfold drainQueue
      rw [hrecq]
    have := ih (processOneEvent b) hrecq (by rw [hone]; exact hτ)
      (by simpa using hrest)
    rw [hrecl] at this
    rw [hdrain]
    refine ⟨?_, this.2⟩
    rw [this.1, hone]
    simp [invokeHandlers, invocationsOf]

theorem invocationsOf_length (hs : List Handler) (es : List Event) :
    (invocationsOf hs es).length = hs.length * es.length := by
  induction es with
  | nil => simp [invocationsOf]
  | cons e rest ih => simp [invocationsOf, ih, Nat.mul_succ, Nat.add_comm]

theorem filter_map_ids_zero (hs : List Handler) (e : Event) (hid : Nat)
    (h : (hs.map Handler.id).count hid = 0) :
    ((hs.map fun h2 => (h2.id, e)).filter fun p => p.1 == hid) = [] := by
  induction hs with
  | nil => rfl
  | cons h2 rest ih =>
    simp only [List.map_cons, List.count_cons, beq_iff_eq] at h
    by_cases heq : h2.id = hid
    · simp [heq] at h
    · have hb : ((h2.id, e).1 == hid) = false := by simpa using heq
      have hz : (rest.map Handler.id).count hid = 0 := by
        simp [heq] at h
        omega
      simp [List.filter_cons, hb, ih hz]

theorem filter_map_ids_one (hs : List Handler) (e : Event) (hid : Nat)
    (h : (hs.map Handler.id).count hid = 1) :
    ((hs.map fun h2 => (h2.id, e)).filter fun p => p.1 == hid) = [(hid, e)] := by
  induction hs with
  | nil => simp at h
  | cons h2 rest ih =>
    simp only [List.map_cons, List.count_cons, beq_iff_eq] at h
    by_cases heq : h2.id = hid
    · have hb : ((h2.id, e).1 == hid) = true := by simpa using heq
      have hz : (rest.map Handler.id).count hid = 0 := by
        simp [heq] at h
        omega
      simp [List.filter_cons, hb, filter_map_ids_zero rest e hid hz, heq]
    · have hb : ((h2.id, e).1 == hid) = false := by simpa using heq
      have h1 : (rest.map Handler.id).count hid = 1 := by
        simp [heq] at h
        omega
      simp [List.filter_cons, hb, ih h1]

theorem handlerSeen_invocationsOf (hs : List Handler) (es : List Event) (hid : Nat)
    (h : (hs.map Handler.id).count hid = 1) :
    handlerSeen (invocationsOf hs es) hid = es := by
  induction es with
  | nil => rfl
  | cons e rest ih =>
    unfold invocationsOf handlerSeen
    rw [List.filter_append, List.map_append, filter_map_ids_one hs e hid h]
    unfold handlerSeen at ih
    rw [ih]
    rfl

theorem handlerSeen_append (l1 l2 : List (Nat × Event)) (hid : Nat) :
    handlerSeen (l1 ++ l2) hid = handlerSeen l1 hid ++ handlerSeen l2 hid := by
  unfold handlerSeen
  rw [List.filter_append, List.map_append]

/-- C8: starting from a bus whose queue is drained, publishing a list of
events of one type with deferred handler list `hs` registered for that type
and then letting the consumption loop run produces exactly
`hs.length × es.length` deferred invocations, appended to the log in event
order with registration order inside; a handler registered once sees exactly
the published events in publish order.  The handlers' raising behaviour is
universally quantified and never constrained, and `publish`, `drainQueue` and
`stop` are total: a handler that raises on every invocation neither reduces
any other handler's invocations nor propagates its exception to the
publisher. -/
theorem event_bus_deferred_delivery (b : EventBus) (τ : String) (hs : List Handler)
    (es : List Event) (h : Handler)
    (hτ : mapGet b.asyncHandlers τ = some hs)
    (hes : (es.all fun e => e.event_type == τ) = true)
    (hq : b.queue = [])
    (hcount : (hs.map Handler.id).count h.id = 1) :
    (drainQueue (consumerRunStart (publishAll b es))).asyncLog
        = b.asyncLog ++ invocationsOf hs es
    ∧ (drainQueue (consumerRunStart (publishAll b es))).asyncLog.length
        = b.asyncLog.length + hs.length * es.length
    ∧ handlerSeen (drainQueue (consumerRunStart (publishAll b es))).asyncLog h.id
        = handlerSeen b.asyncLog h.id ++ es
    ∧ (drainQueue (consumerRunStart (publishAll b es))).queue = [] := by
  have hpub := publishAll_spec τ hs es b hτ hes
  have hstart1 : (consumerRunStart (publishAll b es)).queue = es := by
    simp [consumerRunStart, hpub.2.1, hq]
  have hstart2 : mapGet (consumerRunStart (publishAll b es)).asyncHandlers τ = some hs := by
    simp [consumerRunStart, hpub.1, hτ]
  have hstart3 : (consumerRunStart (publishAll b es)).asyncLog = b.asyncLog := by
    simp [consumerRunStart, hpub.2.2]
  have hdr := drain_spec τ hs es (consumerRunStart (publishAll b es)) hstart1 hstart2 hes
  rw [hstart3] at hdr
  refine ⟨hdr.1, ?_, ?_, hdr.2⟩
  · rw [hdr.1]
    simp [invocationsOf_length]
  · rw [hdr.1, handlerSeen_append, handlerSeen_invocationsOf hs es h.id hcount]

/-- Two sample events of the same type. -/
def evB : Event := .taskCreated "t2" "custom" [("k", .vint 2)]

/-- A bus with one well-behaved and one always-raising deferred handler for
"TaskCreated". -/
def busTwo : EventBus :=
  { busFresh with asyncHandlers := [("TaskCreated", [hOk, hBad])] }

/-- C8 witness: two events, two deferred handlers (one always raising) — four
invocations, and the well-behaved handler sees both events in publish order
despite the raising sibling. -/
theorem event_bus_deferred_delivery_witness :
    mapGet busTwo.asyncHandlers "TaskCreated" = some [hOk, hBad]
    ∧ ([evA, evB].all fun e => e.event_type == "TaskCreated") = true
    ∧ busTwo.queue = []
    ∧ ([hOk, hBad].map Handler.id).count hOk.id = 1
    ∧ (drainQueue (consumerRunStart (publishAll busTwo [evA, evB]))).asyncLog
        = busTwo.asyncLog ++ invocationsOf [hOk, hBad] [evA, evB]
    ∧ (drainQueue (consumerRunStart (publishAll busTwo [evA, evB]))).asyncLog.length
        = busTwo.asyncLog.length + 2 * 2
    ∧ handlerSeen (drainQueue (consumerRunStart (publishAll busTwo [evA, evB]))).asyncLog hOk.id
        = handlerSeen busTwo.asyncLog hOk.id ++ [evA, evB] :=
  ⟨rfl, by rfl, rfl, by rfl,
    (event_bus_deferred_delivery busTwo "TaskCreated" [hOk, hBad] [evA, evB] hOk
      rfl (by rfl) rfl (by rfl)).1,
    (event_bus_deferred_delivery busTwo "TaskCreated" [hOk, hBad] [evA, evB] hOk
      rfl (by rfl) rfl (by rfl)).2.1,
    (event_bus_deferred_delivery busTwo "TaskCreated" [hOk, hBad] [evA, evB] hOk
      rfl (by rfl) rfl (by rfl)).2.2.1⟩

end KING
